import Mathlib

/-!
A verification development for the gmdsl load–resolve–validate pipeline.

The Python sources embedded here are `gmdsl/ast.py` (the declaration model),
`gmdsl/parser.py` (the `AstTransformer` post-processing of parse results),
`gmdsl/loader.py` (`AstLoader`), and `gmdsl/validation.py` (`Validator`).
Pure functions become Lean functions; the mutable object state of the loader
and the validator becomes explicit state passing; Python exceptions become
`Except`; Python dicts (insertion ordered) and sets become association lists
and membership lists.  The surface grammar (`grammar.lark`) is external to
the repository, so the exact shape in which a parsed property type arrives
(bare string for an undotted name, `QualifiedName` for a dotted one) is
modelled from the specification where noted.
-/

namespace GmDsl

/-- Python `s.split(".")` for a single-character separator, at the
character-list level: split on every occurrence of `sep`; the empty list
yields `[[]]`, exactly as Python `"".split(".") == [""]`. -/
def pySplitChar (sep : Char) : List Char → List (List Char)
  | [] => [[]]
  | c :: cs =>
    if c = sep then [] :: pySplitChar sep cs
    else
      match pySplitChar sep cs with
      | [] => [[c]]
      | h :: t => (c :: h) :: t

/-- Python `str.lower()` (ASCII identifiers only in this code base). -/
def pyLower (s : String) : String := ⟨s.data.map Char.toLower⟩

/-- Python `str.upper()`. -/
def pyUpper (s : String) : String := ⟨s.data.map Char.toUpper⟩

/-- Python `str.capitalize()`: first character upper-cased, the rest
lower-cased. -/
def pyCapitalize (s : String) : String :=
  match s.data with
  | [] => ""
  | c :: cs => ⟨c.toUpper :: cs.map Char.toLower⟩

/-- Python `s.endswith(t)`. -/
def pyEndsWith (s t : String) : Bool := t.data.isSuffixOf s.data

/-- Python `d[k] = v` on an insertion-ordered dict: overwrite in place when
the key is present, append otherwise. -/
def dictSet {α : Type} (d : List (String × α)) (k : String) (v : α) :
    List (String × α) :=
  match d with
  | [] => [(k, v)]
  | (k0, v0) :: rest =>
    if k0 = k then (k, v) :: rest else (k0, v0) :: dictSet rest k v

/-- Python `d[k]` / `k in d` on an insertion-ordered dict. -/
def dictLookup {α : Type} (d : List (String × α)) (k : String) : Option α :=
  match d with
  | [] => none
  | (k0, v0) :: rest => if k0 = k then some v0 else dictLookup rest k

/-- Python `d.update(other)`: every binding of `other`, in order,
overwrites/extends `d`. -/
def dictUpdate {α : Type} (d other : List (String × α)) : List (String × α) :=
  other.foldl (fun d kv => dictSet d kv.1 kv.2) d

/-- Python set-of-strings `add`: membership is all the code observes; we keep
insertion order and avoid duplicates. -/
def pySetAdd (s : List String) (x : String) : List String :=
  if s.contains x then s else s ++ [x]

/-! ## The declaration model (`gmdsl/ast.py`)

All `ast.py` dataclasses are frozen; they become plain Lean structures.
Python field `namespace` is a Lean keyword and is spelled `nspace` here. -/

/-- `ast.QualifiedName`: a dotted identifier path. -/
structure QualifiedName where
  parts : List String
  deriving DecidableEq, Repr

/-- Python `str(qn)`, i.e. `".".join(self.parts)`. -/
def QualifiedName.toStr (q : QualifiedName) : String :=
  String.intercalate "." q.parts

/-- `QualifiedName.from_str`: empty string gives no parts, otherwise split
on every dot. -/
def QualifiedName.from_str (name : String) : QualifiedName :=
  if name = "" then ⟨[]⟩ else ⟨(pySplitChar '.' name.data).map String.mk⟩

/-- `QualifiedName.simple_name`: the last part, or `""` when there is none. -/
def QualifiedName.simple_name (q : QualifiedName) : String :=
  q.parts.getLast?.getD ""

/-- `ast.AnnotationArgument.value` is `Any` (string, identifier or number);
the claims only need it as an opaque scalar. -/
inductive PyAtom where
  | strV (s : String)
  | intV (n : Int)
  deriving DecidableEq, Repr

/-- `ast.AnnotationArgument`. -/
structure AnnotationArgument where
  value : PyAtom
  deriving DecidableEq, Repr

/-- `ast.AnnotationUsage`: a qualified annotation name plus arguments. -/
structure AnnotationUsage where
  name : QualifiedName
  args : List AnnotationArgument := []
  deriving DecidableEq, Repr

/-- `ast.AnnotationParameter`: a local parameter name and its (always
qualified) type. -/
structure AnnotationParameter where
  name : String
  type_name : QualifiedName
  deriving DecidableEq, Repr

/-- A property's declared type.  `parser.py` deliberately does not qualify
property types ("Do NOT qualify type_name here!"), and `validation.py`
handles `None`, `str` and `QualifiedName` values.  Modelled from the spec:
a bare (undotted) name arrives from parsing as a string, a dotted name
arrives as a `QualifiedName` (the grammar file is not part of the
repository sources). -/
inductive TypeRef where
  | noneV
  | strV (s : String)
  | qn (q : QualifiedName)
  deriving DecidableEq, Repr

/-- `ast.PropertyDeclaration`. -/
structure PropertyDeclaration where
  name : String
  type_name : TypeRef
  annotations : List AnnotationUsage := []
  deriving DecidableEq, Repr

/-- The four declaration kinds living in `Document.declarations`
(`ast.TypeDeclaration`, `ast.NodeDeclaration`, `ast.EdgeDeclaration`,
`ast.AnnotationDeclaration`).  A declaration name is always a
`QualifiedName` in loader-produced documents (the parser qualifies every
declaration name). -/
inductive Declaration where
  | typeD (name : QualifiedName) (properties : List PropertyDeclaration)
      (annotations : List AnnotationUsage)
  | nodeD (name : QualifiedName) (properties : List PropertyDeclaration)
      (annotations : List AnnotationUsage)
  | edgeD (name : QualifiedName) (source_node : QualifiedName)
      (target_node : QualifiedName) (direction : String)
      (properties : List PropertyDeclaration)
      (annotations : List AnnotationUsage)
  | annotationD (name : QualifiedName) (parameters : List AnnotationParameter)
  deriving DecidableEq, Repr

/-- `declaration.name`, defined for every kind. -/
def Declaration.name : Declaration → QualifiedName
  | .typeD n _ _ => n
  | .nodeD n _ _ => n
  | .edgeD n _ _ _ _ _ => n
  | .annotationD n _ => n

/-- `declaration.annotations` via `getattr(decl, "annotations", [])`:
annotation declarations have no such field, so they give `[]`. -/
def Declaration.annotations : Declaration → List AnnotationUsage
  | .typeD _ _ a => a
  | .nodeD _ _ a => a
  | .edgeD _ _ _ _ _ a => a
  | .annotationD _ _ => []

/-- `declaration.properties` for the kinds that have them (`hasattr(decl,
"properties")` is true exactly for type, node and edge declarations). -/
def Declaration.properties? : Declaration → Option (List PropertyDeclaration)
  | .typeD _ p _ => some p
  | .nodeD _ p _ => some p
  | .edgeD _ _ _ _ p _ => some p
  | .annotationD _ _ => none

/-- `ast.NamespaceDeclaration`. -/
structure NamespaceDeclaration where
  name : QualifiedName
  deriving DecidableEq, Repr

/-- `ast.ImportDeclaration`; `module_name` is always a `QualifiedName`. -/
structure ImportDeclaration where
  module_name : QualifiedName
  deriving DecidableEq, Repr

/-- `ast.Document`.  Python field `namespace` is spelled `nspace`. -/
structure Document where
  source_path : Option String := none
  nspace : Option NamespaceDeclaration := none
  imports : List ImportDeclaration := []
  declarations : List Declaration := []
  deriving DecidableEq, Repr

/-! ## `AstTransformer.qualify_name` (`gmdsl/parser.py`, lines 49–59) -/

/-- The transformer's `qualify_name` argument: `Union[str, QualifiedName]`. -/
inductive NameArg where
  | strV (s : String)
  | qn (q : QualifiedName)
  deriving DecidableEq, Repr

/-- `AstTransformer.qualify_name`, parameterised on the transformer's
`current_namespace` field.  A `QualifiedName` is returned unchanged; a bare
string with no dot is prefixed with the current namespace (when one is
set); anything else goes through `QualifiedName.from_str`. -/
def qualify_name (current_namespace : Option NamespaceDeclaration) :
    NameArg → QualifiedName
  | .qn q => q
  | .strV name =>
    match current_namespace with
    | some nsd =>
      if ¬ name.data.contains '.' then ⟨nsd.name.parts ++ [name]⟩
      else QualifiedName.from_str name
    | none => QualifiedName.from_str name

/-! ## `AstTransformer.document` (`gmdsl/parser.py`, lines 268–303)

The `document` rule receives the already-transformed children.  Newline and
comment tokens are skipped, namespace/import/declaration items are
dispatched on, and anything else produces a printed warning.  We model the
printed warnings as an explicit list of strings. -/

/-- A transformed child of the `document` rule. -/
inductive ParseItem where
  | nlToken
  | commentToken
  | ns (n : NamespaceDeclaration)
  | imp (i : ImportDeclaration)
  | decl (d : Declaration)
  | unhandled (desc : String)
  deriving DecidableEq, Repr

/-- The message printed when a namespace declaration is seen while one is
already recorded. -/
def multipleNamespaceWarning : String :=
  "Warning: Multiple namespace declarations found."

/-- Accumulator state of the `document` loop. -/
structure DocFoldState where
  nspace : Option NamespaceDeclaration
  imports : List ImportDeclaration
  declarations : List Declaration
  warnings : List String
  deriving DecidableEq, Repr

/-- The item loop of `AstTransformer.document`.  Note that on a second
namespace declaration the code prints a warning and then still executes
`namespace = item`: the assignment is not guarded, so a later namespace
declaration overwrites the earlier one. -/
def documentAux (st : DocFoldState) : List ParseItem → DocFoldState
  | [] => st
  | item :: rest =>
    match item with
    | .nlToken => documentAux st rest
    | .commentToken => documentAux st rest
    | .ns n =>
      let warnings :=
        if st.nspace.isSome then st.warnings ++ [multipleNamespaceWarning]
        else st.warnings
      documentAux { st with nspace := some n, warnings := warnings } rest
    | .imp i => documentAux { st with imports := st.imports ++ [i] } rest
    | .decl d =>
      documentAux { st with declarations := st.declarations ++ [d] } rest
    | .unhandled desc =>
      documentAux
        { st with warnings := st.warnings ++
            ["Warning: Unhandled item in document parsing: " ++ desc] } rest

/-- `AstTransformer.document`: assemble the `Document` and return the
warnings printed along the way. -/
def documentTransform (items : List ParseItem) : Document × List String :=
  let st := documentAux ⟨none, [], [], []⟩ items
  ({ source_path := none, nspace := st.nspace, imports := st.imports,
     declarations := st.declarations }, st.warnings)

/-- The namespace payload of an item, when it is one. -/
def nsItemOf : ParseItem → Option NamespaceDeclaration
  | .ns n => some n
  | _ => none

/-! ## `AstLoader` (`gmdsl/loader.py`)

The file system is the loader's external collaborator (spec §1 excludes
file-system concerns from the core).  We model it as a finite association
list from canonical absolute path to what opening-and-parsing that path
produces: a parsed `Document`, or a parse/read failure (the `except` arm of
`_load_recursive`), with an absent key meaning `os.path.exists` is false.
`AstLoader._resolve_import` (pure `os.path` probing over the importing
file's directory and the include paths) is abstracted as a resolution
function from module name and importing file to an optional resolved path;
`_load_recursive` double-checks existence of whatever it is handed, so no
assumption about the resolver is baked in.  The Python recursion is given
explicit fuel; `none` means the fuel ran out, and every theorem exhibits a
run that returns `some`, so the fuelled function agrees with the Python
recursion on it. -/

/-- `loader.LoadError`. -/
structure LoadError where
  message : String
  source_path : Option String := none
  deriving DecidableEq, Repr

/-- What the file system yields for a path: parse success, a raised parse or
read error (its message), or (absent key) no file. -/
inductive FsEntry where
  | docE (d : Document)
  | raiseE (msg : String)
  deriving DecidableEq, Repr

/-- The mutable fields of an `AstLoader` object: `loaded_asts`, `errors` and
`processing`.  `processing` is a Python set only ever queried for
membership; insertion order is irrelevant, and we push/erase on a list. -/
structure LoaderState where
  loaded_asts : List (String × Document)
  errors : List LoadError
  processing : List String
  deriving DecidableEq, Repr

/-- The `for imp in parsed_ast.imports` loop of `_load_recursive`:
`step` is the recursive loading of one resolved path (one fuel level
down). -/
def loadImports (resolve : QualifiedName → String → Option String)
    (step : LoaderState → String → Option LoaderState) :
    LoaderState → String → List ImportDeclaration → Option LoaderState
  | st, _, [] => some st
  | st, file_path, imp :: imps =>
    match resolve imp.module_name file_path with
    | some resolved_path =>
      match step st resolved_path with
      | none => none
      | some st2 => loadImports resolve step st2 file_path imps
    | none =>
      loadImports resolve step
        { st with errors := st.errors ++
          [⟨"Cannot resolve import " ++ "\x27" ++ imp.module_name.toStr ++
              "\x27", some file_path⟩] }
        file_path imps

/-- `AstLoader._load_recursive`.  The already-loaded check comes first, the
in-processing check second, the existence check third; on success the file
is added to `processing`, parsed, recorded in `loaded_asts`, its imports
are processed, and `finally` removes it from `processing` again. -/
def loadRec (fs : List (String × FsEntry))
    (resolve : QualifiedName → String → Option String) :
    Nat → LoaderState → String → Option LoaderState
  | 0, _, _ => none
  | fuel + 1, st, file_path =>
    if (dictLookup st.loaded_asts file_path).isSome then some st
    else if st.processing.contains file_path then
      some { st with errors := st.errors ++
        [⟨"Circular import detected: " ++ file_path, some file_path⟩] }
    else
      match dictLookup fs file_path with
      | none =>
        some { st with errors := st.errors ++
          [⟨"File not found: " ++ file_path, some file_path⟩] }
      | some entry =>
        let st1 : LoaderState :=
          { st with processing := file_path :: st.processing }
        match entry with
        | .raiseE msg =>
          -- `except` appends the error; `finally` removes from `processing`.
          some { st1 with
            errors := st1.errors ++
              [⟨"Error processing file: " ++ msg, some file_path⟩],
            processing := st1.processing.erase file_path }
        | .docE parsed_ast =>
          let st2 : LoaderState :=
            { st1 with loaded_asts :=
                st1.loaded_asts ++ [(file_path, parsed_ast)] }
          match loadImports resolve (loadRec fs resolve fuel) st2 file_path
              parsed_ast.imports with
          | none => none
          | some st3 =>
            some { st3 with processing := st3.processing.erase file_path }

/-- `AstLoader.load`: reset `loaded_asts`, `errors` and `processing`, then
run `_load_recursive` on the root path.  The previous loader state is taken
(and discarded) to make the reset explicit. -/
def load (fs : List (String × FsEntry))
    (resolve : QualifiedName → String → Option String)
    (prior : LoaderState) (root_file_path : String) (fuel : Nat) :
    Option LoaderState :=
  loadRec fs resolve fuel
    { prior with loaded_asts := [], errors := [], processing := [] }
    root_file_path

/-! ## `Validator` (`gmdsl/validation.py`)

`Validator.validate` first runs `_resolve_property_types`, which mutates the
input documents in place (`doc.declarations[i] = new_decl`); the mutation is
made explicit by returning the updated document map.  The class defines
`_validate_annotations` twice; the second definition (line 566) shadows the
first, and its membership test `usage.name not in available_annotations`
hashes a `QualifiedName` — a frozen dataclass whose `parts` field is a
Python list — against a set of strings, which raises
`TypeError: unhashable type: 'list'`.  Raising is modelled with `Except`. -/

/-- `validation.ValidationError`. -/
structure ValidationError where
  message : String
  source_path : Option String := none
  deriving DecidableEq, Repr

/-- The runtime exceptions `Validator.validate` can raise. -/
inductive PyErr where
  | typeError (msg : String)
  deriving DecidableEq, Repr

/-- The per-document type map of `_resolve_property_types` (lines 29–32):
every declaration with `name` and `properties` attributes (types, nodes and
edges, not annotation declarations) is recorded under its simple name. -/
def docTypeMap (doc : Document) : List (String × QualifiedName) :=
  doc.declarations.foldl
    (fun tm decl =>
      match decl.properties? with
      | some _ => dictSet tm decl.name.simple_name decl.name
      | none => tm)
    []

/-- The `ns_type_maps` dict of `_resolve_property_types` (lines 25–35): for
every document with a truthy namespace string, its type map is registered
under both the namespace's last dotted segment and the full namespace. -/
def buildNsTypeMaps (docs : List (String × Document)) :
    List (String × List (String × QualifiedName)) :=
  docs.foldl
    (fun m pd =>
      let doc := pd.2
      match doc.nspace with
      | none => m
      | some nsd =>
        let ns := nsd.name.toStr
        if ns = "" then m
        else
          let type_map := docTypeMap doc
          let ns_suffix := (QualifiedName.from_str ns).simple_name
          dictSet (dictSet m ns_suffix type_map) ns type_map)
    []

/-- The `import_type_map` of `_resolve_property_types` (lines 38–55): for
each import, merge the maps registered under the import's simple name and
its casing variants, then the maps of every namespace key whose lower-cased
form ends with the lower-cased import name. -/
def buildImportTypeMap (nsMaps : List (String × List (String × QualifiedName)))
    (doc : Document) : List (String × QualifiedName) :=
  doc.imports.foldl
    (fun itm imp =>
      let import_name := imp.module_name.simple_name
      let itm :=
        [import_name, pyCapitalize import_name, pyLower import_name,
          pyUpper import_name].foldl
          (fun itm ns_key =>
            match dictLookup nsMaps ns_key with
            | some tm => dictUpdate itm tm
            | none => itm)
          itm
      nsMaps.foldl
        (fun itm kv =>
          if pyEndsWith (pyLower kv.1) (pyLower import_name) then
            dictUpdate itm kv.2
          else itm)
        itm)
    []

/-- The per-property rewrite of `_resolve_property_types` (lines 60–80): a
bare (undotted) string type is looked up in the import type map and falls
back to qualification under the declaring name's namespace prefix;
everything else is left unchanged.  The property is rebuilt with the same
name and annotations. -/
def resolveProp (itm : List (String × QualifiedName)) (declName : QualifiedName)
    (prop : PropertyDeclaration) : PropertyDeclaration :=
  let resolved : TypeRef :=
    match prop.type_name with
    | .strV t =>
      if ¬ t.data.contains '.' then
        match dictLookup itm t with
        | some q => .qn q
        | none => .qn ⟨declName.parts.dropLast ++ [t]⟩
      else .strV t
    | t => t
  { name := prop.name, type_name := resolved, annotations := prop.annotations }

/-- The per-declaration rebuild of `_resolve_property_types` (lines 57–99):
declarations with `name` and `properties` are reconstructed around the
resolved property list, preserving every other field; annotation
declarations are untouched. -/
def resolveDecl (itm : List (String × QualifiedName)) :
    Declaration → Declaration
  | .typeD n props annos => .typeD n (props.map (resolveProp itm n)) annos
  | .nodeD n props annos => .nodeD n (props.map (resolveProp itm n)) annos
  | .edgeD n src tgt dir props annos =>
    .edgeD n src tgt dir (props.map (resolveProp itm n)) annos
  | .annotationD n params => .annotationD n params

/-- `Validator._resolve_property_types` (lines 24–99), with the in-place
mutation of each document's declaration list made explicit in the result. -/
def resolvePropertyTypes (docs : List (String × Document)) :
    List (String × Document) :=
  let nsMaps := buildNsTypeMaps docs
  docs.map (fun pd =>
    let doc := pd.2
    let itm := buildImportTypeMap nsMaps doc
    (pd.1, { doc with declarations := doc.declarations.map (resolveDecl itm) }))

/-- The definition tables and duplicate errors of the validator's first
pass. -/
structure DefTables where
  errors : List ValidationError
  defined_types : List (String × Declaration)
  defined_nodes : List (String × Declaration)
  defined_annotations : List (String × Declaration)
  deriving DecidableEq, Repr

/-- Insert a definition (lines 157–177): an occupied key records a
duplicate-definition error tagged with the kind, the name and the source
file, and leaves the table unchanged; otherwise the declaration is stored. -/
def insertDef (tbl : List (String × Declaration)) (kind def_name : String)
    (decl : Declaration) (doc_path : String) :
    List (String × Declaration) × Option ValidationError :=
  if (dictLookup tbl def_name).isSome then
    (tbl, some ⟨"Duplicate " ++ kind ++ " definition: " ++ "\x27" ++ def_name ++
      "\x27", some doc_path⟩)
  else (tbl ++ [(def_name, decl)], none)

/-- The canonical qualified name computed in the first pass (lines
118–155): a declaration is local when the document has no namespace or the
name starts with the namespace parts; a local name is prefixed with the
namespace unless some namespace part already occurs among the name's
leading parts. -/
def pass1QualifiedName (docNs : Option NamespaceDeclaration)
    (declName : QualifiedName) : QualifiedName :=
  let current_namespace : QualifiedName :=
    match docNs with
    | some n => n.name
    | none => QualifiedName.from_str ""
  let is_local : Bool :=
    (docNs.isSome &&
      (declName.parts.take current_namespace.parts.length ==
        current_namespace.parts)) || docNs.isNone
  if is_local then
    if ¬ current_namespace.parts.isEmpty && ¬ declName.parts.isEmpty &&
        ¬ current_namespace.parts.any
          (fun part => declName.parts.dropLast.contains part) then
      ⟨current_namespace.parts ++ [declName.simple_name]⟩
    else declName
  else declName

/-- The first pass of `Validator.validate` (lines 109–177): walk every
document's declarations, compute the lookup name, and fill the three
definition tables, recording duplicate-definition errors.  Edge
declarations are not collected (there is no `isinstance` branch for
them). -/
def collectDefinitions (docs : List (String × Document)) : DefTables :=
  docs.foldl
    (fun tb pd =>
      let doc_path := pd.1
      let doc := pd.2
      doc.declarations.foldl
        (fun tb decl =>
          let def_name := (pass1QualifiedName doc.nspace decl.name).toStr
          match decl with
          | .typeD _ _ _ =>
            let r := insertDef tb.defined_types "type" def_name decl doc_path
            { tb with
              defined_types := r.1
              errors := tb.errors ++ r.2.toList }
          | .nodeD _ _ _ =>
            let r := insertDef tb.defined_nodes "node" def_name decl doc_path
            { tb with
              defined_nodes := r.1
              errors := tb.errors ++ r.2.toList }
          | .annotationD _ _ =>
            let r := insertDef tb.defined_annotations "annotation" def_name
              decl doc_path
            { tb with
              defined_annotations := r.1
              errors := tb.errors ++ r.2.toList }
          | .edgeD _ _ _ _ _ _ => tb)
        tb)
    ⟨[], [], [], []⟩

/-- The last document whose namespace equals `gm.CoreTypes` (lines
110–116).  `_get_available_types` receives it but never reads it. -/
def findCoreTypesDoc (docs : List (String × Document)) : Option Document :=
  docs.foldl
    (fun acc pd =>
      match pd.2.nspace with
      | some n =>
        if n.name = QualifiedName.from_str "gm.CoreTypes" then some pd.2
        else acc
      | none => acc)
    none

/-- `Validator._get_available_types` (lines 252–283): simple and fully
qualified names of the current document's type declarations, plus those of
every document whose namespace string ends (case-insensitively) with an
import's simple name.  The core-types document parameter is unused in the
source. -/
def getAvailableTypes (current_doc : Document)
    (_core_types_doc : Option Document) (all_docs : List (String × Document)) :
    List String :=
  let available := current_doc.declarations.foldl
    (fun av decl =>
      match decl with
      | .typeD n _ _ => pySetAdd (pySetAdd av n.simple_name) n.toStr
      | _ => av)
    []
  current_doc.imports.foldl
    (fun av imp =>
      let import_name := imp.module_name.simple_name
      all_docs.foldl
        (fun av pd =>
          let ns :=
            match pd.2.nspace with
            | some n => n.name.toStr
            | none => ""
          if pyEndsWith (pyLower ns) (pyLower import_name) then
            pd.2.declarations.foldl
              (fun av decl =>
                match decl with
                | .typeD n _ _ => pySetAdd (pySetAdd av n.simple_name) n.toStr
                | _ => av)
              av
          else av)
        av)
    available

/-- `Validator._get_available_nodes` (lines 285–295): the current
document's node declarations plus every entry of the `defined_nodes`
table. -/
def getAvailableNodes (current_doc : Document)
    (defined_nodes : List (String × Declaration)) : List String :=
  let available := current_doc.declarations.foldl
    (fun av decl =>
      match decl with
      | .nodeD n _ _ => pySetAdd (pySetAdd av n.simple_name) n.toStr
      | _ => av)
    []
  defined_nodes.foldl
    (fun av kv =>
      pySetAdd (pySetAdd av kv.2.name.simple_name) kv.2.name.toStr)
    available

/-- `Validator._get_available_annotations` (lines 297–307). -/
def getAvailableAnnotations (current_doc : Document)
    (defined_annotations : List (String × Declaration)) : List String :=
  let available := current_doc.declarations.foldl
    (fun av decl =>
      match decl with
      | .annotationD n _ => pySetAdd (pySetAdd av n.simple_name) n.toStr
      | _ => av)
    []
  defined_annotations.foldl
    (fun av kv =>
      pySetAdd (pySetAdd av kv.2.name.simple_name) kv.2.name.toStr)
    available

/-- The per-property check of `Validator._validate_properties` (lines
309–335): `None` types are skipped, strings are converted with `from_str`,
and a type whose simple and full names are both unavailable yields an
unknown-type error. -/
def checkProp (available_types : List String) (declName : QualifiedName)
    (source_path : Option String) (prop : PropertyDeclaration) :
    Option ValidationError :=
  match prop.type_name with
  | .noneV => none
  | tr =>
    let prop_type : QualifiedName :=
      match tr with
      | .qn q => q
      | .strV s => QualifiedName.from_str s
      | .noneV => ⟨[]⟩
    let type_name := prop_type.toStr
    let simple_name := prop_type.simple_name
    if available_types.contains simple_name ||
        available_types.contains type_name then none
    else
      some ⟨"Unknown type " ++ "\x27" ++ type_name ++ "\x27" ++
        " used in property " ++ "\x27" ++ prop.name ++ "\x27" ++ " of " ++
        "\x27" ++ declName.toStr ++ "\x27", source_path⟩

/-- `Validator._validate_properties` over a declaration's property list. -/
def validateProperties (decl : Declaration) (available_types : List String)
    (source_path : Option String) : List ValidationError :=
  (decl.properties?.getD []).filterMap
    (checkProp available_types decl.name source_path)

/-- The second `_validate_annotations` definition (lines 566–578), the one
Python keeps: with no usages it returns; otherwise the first membership
test `usage.name not in available_annotations` hashes a `QualifiedName`
whose `parts` is a list and raises `TypeError`. -/
def validateAnnotationUsages (usages : List AnnotationUsage)
    (_available_annotations : List String) : Except PyErr Unit :=
  match usages with
  | [] => .ok ()
  | _ :: _ => .error (.typeError ("unhashable type: " ++ "\x27" ++ "list" ++
      "\x27"))

/-- `Validator._validate_edge` (lines 337–353): source endpoint checked
first, then target. -/
def validateEdge (name source_node target_node : QualifiedName)
    (available_nodes : List String) (source_path : Option String) :
    List ValidationError :=
  let source_str := source_node.toStr
  let target_str := target_node.toStr
  (if ¬ available_nodes.contains source_str then
    [⟨"Undefined source node " ++ "\x27" ++ source_str ++ "\x27" ++
      " in edge " ++ "\x27" ++ name.toStr ++ "\x27", source_path⟩]
  else []) ++
  (if ¬ available_nodes.contains target_str then
    [⟨"Undefined target node " ++ "\x27" ++ target_str ++ "\x27" ++
      " in edge " ++ "\x27" ++ name.toStr ++ "\x27", source_path⟩]
  else [])

/-- `Validator._validate_annotation_declaration` (lines 377–397). -/
def validateAnnotationDeclaration (name : QualifiedName)
    (parameters : List AnnotationParameter) (available_types : List String)
    (source_path : Option String) : List ValidationError :=
  parameters.filterMap (fun param =>
    let type_name := param.type_name.toStr
    let simple_name := param.type_name.simple_name
    if available_types.contains simple_name ||
        available_types.contains type_name then none
    else
      some ⟨"Unknown type " ++ "\x27" ++ type_name ++ "\x27" ++
        " used in parameter " ++ "\x27" ++ param.name ++ "\x27" ++
        " of annotation " ++ "\x27" ++ name.toStr ++ "\x27", source_path⟩)

/-- The second-pass body for one declaration (lines 187–205): property and
annotation checks for types, nodes and edges (the annotation check can
raise), then the edge endpoint check, then the annotation-declaration
parameter check. -/
def validateDeclPass2 (decl : Declaration) (available_types : List String)
    (available_nodes : List String) (available_annotations : List String)
    (source_path : Option String) : Except PyErr (List ValidationError) :=
  let propErrs :=
    match decl with
    | .typeD _ _ _ | .nodeD _ _ _ | .edgeD _ _ _ _ _ _ =>
      validateProperties decl available_types source_path
    | .annotationD _ _ => []
  let annoStep : Except PyErr Unit :=
    match decl with
    | .typeD _ _ _ | .nodeD _ _ _ | .edgeD _ _ _ _ _ _ =>
      validateAnnotationUsages decl.annotations available_annotations
    | .annotationD _ _ => .ok ()
  match annoStep with
  | .error e => .error e
  | .ok _ =>
    let edgeErrs :=
      match decl with
      | .edgeD n src tgt _ _ _ =>
        validateEdge n src tgt available_nodes source_path
      | _ => []
    let annoDeclErrs :=
      match decl with
      | .annotationD n params =>
        validateAnnotationDeclaration n params available_types source_path
      | _ => []
    .ok (propErrs ++ edgeErrs ++ annoDeclErrs)

/-- The second pass over one document (lines 180–205). -/
def validateDocPass2 (tables : DefTables) (core_types_doc : Option Document)
    (all_docs : List (String × Document)) (doc_path : String)
    (doc : Document) : Except PyErr (List ValidationError) :=
  let available_types := getAvailableTypes doc core_types_doc all_docs
  let available_nodes := getAvailableNodes doc tables.defined_nodes
  let available_annotations :=
    getAvailableAnnotations doc tables.defined_annotations
  doc.declarations.foldlM
    (fun acc decl =>
      match validateDeclPass2 decl available_types available_nodes
          available_annotations (some doc_path) with
      | .error e => .error e
      | .ok errs => .ok (acc ++ errs))
    []

/-- The second-pass loop of `Validator.validate` (lines 179–205) over the
whole document map. -/
def pass2All (tables : DefTables) (core_types_doc : Option Document)
    (docs : List (String × Document)) : Except PyErr (List ValidationError) :=
  docs.foldlM
    (fun acc pd =>
      match validateDocPass2 tables core_types_doc docs pd.1 pd.2 with
      | .error e => .error e
      | .ok errs => .ok (acc ++ errs))
    []

/-- `Validator.validate` (lines 101–207): run `_resolve_property_types`
(mutating the documents — returned explicitly), collect definitions, then
validate references per document.  The result is the accumulated error
list together with the documents as the caller observes them afterwards. -/
def validate (loaded_asts : List (String × Document)) :
    Except PyErr (List ValidationError × List (String × Document)) :=
  let docs := resolvePropertyTypes loaded_asts
  let tables := collectDefinitions docs
  let core_types_doc := findCoreTypesDoc docs
  match pass2All tables core_types_doc docs with
  | .error e => .error e
  | .ok passErrs => .ok (tables.errors ++ passErrs, docs)

/-! ## Auxiliary functions for the theorems -/

/-- Decidable equality for `Except` results (used to state concrete runs of
`validate`). -/
instance {ε α : Type} [DecidableEq ε] [DecidableEq α] :
    DecidableEq (Except ε α) := fun a b =>
  match a, b with
  | .ok x, .ok y =>
    if h : x = y then isTrue (by rw [h]) else isFalse (by simp [h])
  | .error x, .error y =>
    if h : x = y then isTrue (by rw [h]) else isFalse (by simp [h])
  | .ok _, .error _ => isFalse (by simp)
  | .error _, .ok _ => isFalse (by simp)

/-- `'.' :: x ++ '.' :: y ++ …` — the tail of a dot-joined list. -/
def dotCatL : List (List Char) → List Char
  | [] => []
  | x :: xs => '.' :: x ++ dotCatL xs

/-- Join character lists with single dots (the character-level meaning of
`".".join`). -/
def joinDots : List (List Char) → List Char
  | [] => []
  | x :: xs => x ++ dotCatL xs

/-- Erase every property's declared type (used to state that property-type
resolution changes nothing else). -/
def scrubProp (p : PropertyDeclaration) : PropertyDeclaration :=
  { p with type_name := .noneV }

/-- Erase all property types of a declaration. -/
def scrubDecl : Declaration → Declaration
  | .typeD n props annos => .typeD n (props.map scrubProp) annos
  | .nodeD n props annos => .nodeD n (props.map scrubProp) annos
  | .edgeD n src tgt dir props annos =>
    .edgeD n src tgt dir (props.map scrubProp) annos
  | .annotationD n params => .annotationD n params

/-- Erase all property types of a document. -/
def scrubDoc (d : Document) : Document :=
  { d with declarations := d.declarations.map scrubDecl }

/-- No declaration of any document carries a declaration-level annotation
usage (the condition under which the shadowing `_validate_annotations`
cannot raise). -/
def noDeclAnnotations (docs : List (String × Document)) : Bool :=
  docs.all (fun pd => pd.2.declarations.all (fun d => d.annotations.isEmpty))

/-- Does an error message start with `Unknown type `? -/
def isUnknownTypeMsg (e : ValidationError) : Bool :=
  ("Unknown type ").data.isPrefixOf e.message.data

/-- The first property's declared type of a document's first declaration. -/
def firstPropType (doc : Document) : Option TypeRef :=
  match doc.declarations with
  | decl :: _ =>
    match decl.properties? with
    | some (p :: _) => some p.type_name
    | _ => none
  | [] => none

/-! ## Concrete scenarios

The inputs below are `Document` values as the loader produces them: every
declaration name is parser-qualified under its document's namespace, bare
property types arrive as strings, dotted ones as qualified names. -/

/-- File `X.gm`: imports module `Y`. -/
def docX : Document :=
  { source_path := some "X.gm"
    nspace := some ⟨⟨["FileA"]⟩⟩
    imports := [⟨⟨["Y"]⟩⟩]
    declarations := [] }

/-- File `Y.gm`: imports module `X`. -/
def docY : Document :=
  { source_path := some "Y.gm"
    nspace := some ⟨⟨["FileB"]⟩⟩
    imports := [⟨⟨["X"]⟩⟩]
    declarations := [] }

/-- The two-file mutually-importing file system of spec §8, cycle
scenario. -/
def fsXY : List (String × FsEntry) := [("X.gm", .docE docX), ("Y.gm", .docE docY)]

/-- Import resolution for `fsXY`: module `X` lives in `X.gm`, module `Y` in
`Y.gm`, regardless of the importing file. -/
def resolveXY : QualifiedName → String → Option String := fun m _ =>
  match m.parts with
  | ["Y"] => some "Y.gm"
  | ["X"] => some "X.gm"
  | _ => none

/-- The state `load` reaches on the two-file cycle: both documents loaded
once, in discovery order, no errors, nothing left in `processing`. -/
def twoFileFinal : LoaderState :=
  { loaded_asts := [("X.gm", docX), ("Y.gm", docY)]
    errors := []
    processing := [] }

/-- The `gm.CoreTypes` module.  Modelled from the spec: the repository
sources ship no core-types `.gm` file; spec §4.3/§8 describe a core module
whose namespace is `gm.CoreTypes` declaring the built-in scalar types
(`String` among them), which the parser qualifies under that namespace. -/
def coreDoc : Document :=
  { source_path := some "core.gm"
    nspace := some ⟨⟨["gm", "CoreTypes"]⟩⟩
    imports := []
    declarations := [.typeD ⟨["gm", "CoreTypes", "String"]⟩ [] [],
                     .typeD ⟨["gm", "CoreTypes", "Int"]⟩ [] [],
                     .typeD ⟨["gm", "CoreTypes", "Boolean"]⟩ [] [],
                     .typeD ⟨["gm", "CoreTypes", "Date"]⟩ [] []] }

/-- Scenario 1 of spec §8: `namespace Test;` with
`node Person { prop: String }`, importing the core-types module (which is
how the core module enters a loaded model). -/
def c4TestDoc : Document :=
  { source_path := some "test.gm"
    nspace := some ⟨⟨["Test"]⟩⟩
    imports := [⟨⟨["gm", "CoreTypes"]⟩⟩]
    declarations :=
      [.nodeD ⟨["Test", "Person"]⟩ [⟨"prop", .strV "String", []⟩] []] }

/-- The loaded model of scenario 1, in loader (root first) order. -/
def c4docs : List (String × Document) := [("test.gm", c4TestDoc), ("core.gm", coreDoc)]

/-- Scenario 4 of spec §8, document A: namespace `Foo`, no imports,
declares `type Point`; it lives in file `Foo.gm`, so document B imports it
as module `Foo`. -/
def c5DocA : Document :=
  { source_path := some "Foo.gm"
    nspace := some ⟨⟨["Foo"]⟩⟩
    imports := []
    declarations := [.typeD ⟨["Foo", "Point"]⟩ [] []] }

/-- Scenario 4, document B: namespace `Bar`, imports A, declares
`node Place { loc: Foo.Point }` (a dotted type arrives from parsing as a
qualified name). -/
def c5DocB : Document :=
  { source_path := some "Bar.gm"
    nspace := some ⟨⟨["Bar"]⟩⟩
    imports := [⟨⟨["Foo"]⟩⟩]
    declarations :=
      [.nodeD ⟨["Bar", "Place"]⟩ [⟨"loc", .qn ⟨["Foo", "Point"]⟩, []⟩] []] }

/-- The loaded model of scenario 4, root (B) first. -/
def c5docs : List (String × Document) := [("Bar.gm", c5DocB), ("Foo.gm", c5DocA)]

/-- Two nodes named `Test.Person` in one document; the first carries a
property (of the locally declared type `T`) so that it is distinguishable
from the second. -/
def c6SameDoc : Document :=
  { source_path := some "m1.gm"
    nspace := some ⟨⟨["Test"]⟩⟩
    imports := []
    declarations := [.typeD ⟨["Test", "T"]⟩ [] [],
                     .nodeD ⟨["Test", "Person"]⟩ [⟨"x", .strV "T", []⟩] [],
                     .nodeD ⟨["Test", "Person"]⟩ [] []] }

/-- The same-document duplicate model. -/
def c6docsSame : List (String × Document) := [("m1.gm", c6SameDoc)]

/-- Cross-document duplicates: first document declares `Test.Person` (with
a property), second declares it again. -/
def c6Doc1 : Document :=
  { source_path := some "m1.gm"
    nspace := some ⟨⟨["Test"]⟩⟩
    imports := []
    declarations := [.typeD ⟨["Test", "T"]⟩ [] [],
                     .nodeD ⟨["Test", "Person"]⟩ [⟨"x", .strV "T", []⟩] []] }

/-- Second document of the cross-document duplicate model. -/
def c6Doc2 : Document :=
  { source_path := some "m2.gm"
    nspace := some ⟨⟨["Test"]⟩⟩
    imports := []
    declarations := [.nodeD ⟨["Test", "Person"]⟩ [] []] }

/-- The cross-document duplicate model. -/
def c6docsCross : List (String × Document) := [("m1.gm", c6Doc1), ("m2.gm", c6Doc2)]

/-- The first declaration of `Test.Person`, as it sits in the definition
table after validation (its property type resolved to `Test.T`). -/
def c6FirstPerson : Declaration :=
  .nodeD ⟨["Test", "Person"]⟩ [⟨"x", .qn ⟨["Test", "T"]⟩, []⟩] []

/-- A loaded document whose one property type arrives as the bare string
`String`: `_resolve_property_types` rewrites it in place. -/
def c3MutDoc : Document :=
  { source_path := some "m.gm"
    nspace := some ⟨⟨["Test"]⟩⟩
    imports := []
    declarations :=
      [.nodeD ⟨["Test", "Person"]⟩ [⟨"prop", .strV "String", []⟩] []] }

/-- The single-document map around `c3MutDoc`. -/
def c3MutDocs : List (String × Document) := [("m.gm", c3MutDoc)]

/-- A loaded document whose node carries an annotation usage: validating it
reaches the shadowing `_validate_annotations` and raises `TypeError`. -/
def c3AnnDoc : Document :=
  { source_path := some "m.gm"
    nspace := some ⟨⟨["Test"]⟩⟩
    imports := []
    declarations := [.nodeD ⟨["Test", "Person"]⟩ [] [⟨⟨["Test", "Tag"]⟩, []⟩]] }

/-- The single-document map around `c3AnnDoc`. -/
def c3AnnDocs : List (String × Document) := [("m.gm", c3AnnDoc)]

/-- A property list from (name, type) string pairs, each type a bare or
dotted string reference. -/
def c7props (ts : List (String × String)) : List PropertyDeclaration :=
  ts.map (fun nt => ⟨nt.1, .strV nt.2, []⟩)

/-- A document whose single node holds the given properties and declares no
types, so that no property type can resolve. -/
def c7doc (props : List PropertyDeclaration) : Document :=
  { source_path := some "m.gm"
    nspace := some ⟨⟨["Test"]⟩⟩
    imports := []
    declarations := [.nodeD ⟨["Test", "Person"]⟩ props []] }

/-- The one-document model with `ts.length` independent unknown-type
property references. -/
def c7model (ts : List (String × String)) : List (String × Document) :=
  [("m.gm", c7doc (c7props ts))]

/-- The unknown-type error produced for the property `nt.1 : nt.2` of
`Test.Person` in the `c7model`: a bare type name is first requalified under
the local namespace, a dotted one is reported as written. -/
def c7err (nt : String × String) : ValidationError :=
  ⟨"Unknown type " ++ "\x27" ++
    (if nt.2.data.contains '.' then nt.2 else "Test." ++ nt.2) ++ "\x27" ++
    " used in property " ++ "\x27" ++ nt.1 ++ "\x27" ++ " of " ++ "\x27" ++
    "Test.Person" ++ "\x27", some "m.gm"⟩

/-- A loader state left dirty by an earlier run (exercises the reset in
`load`). -/
def dirtyState1 : LoaderState :=
  { loaded_asts := [("stale.gm", { source_path := some "stale.gm" })]
    errors := [⟨"stale error", none⟩]
    processing := ["leftover.gm"] }

/-- Another dirty loader state. -/
def dirtyState2 : LoaderState :=
  { loaded_asts := []
    errors := [⟨"other stale error", some "old.gm"⟩]
    processing := ["a.gm", "b.gm"] }

/-! ## String lemmas for the `QualifiedName` round trip -/

theorem strData_append (x y : String) : (x ++ y).data = x.data ++ y.data := by
  cases x; cases y; rfl

theorem data_mk (cs : List Char) : (String.mk cs).data = cs := rfl

theorem strExt {a b : String} (h : a.data = b.data) : a = b := by
  cases a; cases b
  exact congrArg String.mk h

theorem map_data_mk (xs : List (List Char)) :
    xs.map (String.data ∘ String.mk) = xs := by
  induction xs with
  | nil => rfl
  | cons x xs ih => simp [Function.comp, data_mk, ih]

theorem intercalate_go_data (as : List String) :
    ∀ acc : String,
      (String.intercalate.go acc "." as).data = acc.data ++ dotCatL (as.map String.data) := by
  induction as with
  | nil => intro acc; simp [String.intercalate.go, dotCatL]
  | cons a as ih =>
    intro acc
    have hd : (acc ++ "." ++ a).data = acc.data ++ '.' :: a.data := by
      rw [strData_append, strData_append]
      have hdot : ".".data = ['.'] := rfl
      rw [hdot]
      simp
    simp [String.intercalate.go, dotCatL, ih, hd]

theorem intercalate_map_mk (l : List (List Char)) :
    String.intercalate "." (l.map String.mk) = ⟨joinDots l⟩ := by
  cases l with
  | nil => rfl
  | cons x xs =>
    apply strExt
    show (String.intercalate.go ⟨x⟩ "." (xs.map String.mk)).data = _
    rw [intercalate_go_data]
    simp only [List.map_map, map_data_mk, joinDots, data_mk]

theorem pySplitChar_ne_nil (sep : Char) (cs : List Char) :
    pySplitChar sep cs ≠ [] := by
  cases cs with
  | nil => simp [pySplitChar]
  | cons c cs =>
    rw [pySplitChar]
    split
    · simp
    · split <;> simp_all

theorem joinDots_pySplitChar (cs : List Char) :
    joinDots (pySplitChar '.' cs) = cs := by
  induction cs with
  | nil => rfl
  | cons c cs ih =>
    rw [pySplitChar]
    by_cases hc : c = '.'
    · subst hc
      simp only [if_pos rfl]
      obtain ⟨h, t, ht⟩ : ∃ h t, pySplitChar '.' cs = h :: t := by
        cases hsp : pySplitChar '.' cs with
        | nil => exact absurd hsp (pySplitChar_ne_nil _ _)
        | cons h t => exact ⟨h, t, rfl⟩
      rw [ht] at ih ⊢
      show ([] : List Char) ++ dotCatL (h :: t) = _
      simp only [dotCatL, joinDots, List.nil_append] at ih ⊢
      simp [ih]
    · simp only [if_neg hc]
      cases hsp : pySplitChar '.' cs with
      | nil => exact absurd hsp (pySplitChar_ne_nil _ _)
      | cons h t =>
        rw [hsp] at ih
        cases t with
        | nil => simpa [joinDots, dotCatL] using ih
        | cons u us =>
          simp only [joinDots, dotCatL, List.cons_append, List.append_assoc] at ih ⊢
          simp [ih]

theorem from_str_toStr (s : String) : (QualifiedName.from_str s).toStr = s := by
  unfold QualifiedName.from_str
  split
  · subst s; rfl
  · show QualifiedName.toStr ⟨(pySplitChar '.' s.data).map String.mk⟩ = s
    unfold QualifiedName.toStr
    rw [intercalate_map_mk, joinDots_pySplitChar]

/-! ## C8: the `QualifiedName` round trip -/

/-- C8: for every non-empty dotted string `s` with no leading or trailing
dot, converting `QualifiedName.from_str s` back to a string yields `s`. -/
theorem qualifiedName_roundtrip (s : String) (_h1 : s ≠ "")
    (_h2 : s.data.head? ≠ some '.') (_h3 : s.data.getLast? ≠ some '.') :
    (QualifiedName.from_str s).toStr = s :=
  from_str_toStr s

/-- Witness for C8 at the concrete dotted string `gm.CoreTypes`. -/
theorem qualifiedName_roundtrip_witness :
    (QualifiedName.from_str "gm.CoreTypes").toStr = "gm.CoreTypes" :=
  qualifiedName_roundtrip "gm.CoreTypes" (by decide) (by decide) (by decide)

/-! ## C1: the two-file import cycle -/

/-- C1 counterexample: on the two-file mutual import, `load` terminates with
both files in the result map but the error list is empty — there is no
circular-import error at all, because each file is recorded in
`loaded_asts` before its imports are processed and the already-loaded check
precedes the in-processing check, so the closing edge of the cycle is a
no-op. -/
theorem twoFileCycle_zero_errors_counterexample :
    load fsXY resolveXY ⟨[], [], []⟩ "X.gm" 10 = some twoFileFinal ∧
    twoFileFinal.errors.length = 0 ∧ ¬ twoFileFinal.errors.length = 1 := by
  decide

/-- C1 amended: for a two-file mutual import (X imports Y, Y imports X),
`AstLoader.load X` terminates, its result map contains exactly the entries
for X and Y, each loaded exactly once, and the accumulated error list is
empty — the circular-import branch does not fire on the closing edge, which
hits the already-loaded check instead. -/
theorem twoFileCycle_terminates_loads_both_no_error (prior : LoaderState) :
    load fsXY resolveXY prior "X.gm" 10 = some twoFileFinal ∧
    twoFileFinal.loaded_asts.map Prod.fst = ["X.gm", "Y.gm"] ∧
    dictLookup twoFileFinal.loaded_asts "X.gm" = some docX ∧
    dictLookup twoFileFinal.loaded_asts "Y.gm" = some docY ∧
    twoFileFinal.errors = [] := by
  have h : load fsXY resolveXY ⟨[], [], []⟩ "X.gm" 10 = some twoFileFinal := by
    decide
  exact ⟨h, by decide, by decide, by decide, by decide⟩

/-! ## C2: multiple namespace declarations -/

/-- C2 counterexample: with two namespace declarations the resulting
document's namespace is the second one, not the first — the assignment
after the warning is unguarded — while a single warning is emitted and
parsing is not aborted. -/
theorem document_second_namespace_overwrites_counterexample :
    (documentTransform [.ns ⟨⟨["First"]⟩⟩, .ns ⟨⟨["Second"]⟩⟩]).1.nspace =
      some ⟨⟨["Second"]⟩⟩ ∧
    (documentTransform [.ns ⟨⟨["First"]⟩⟩, .ns ⟨⟨["Second"]⟩⟩]).1.nspace ≠
      some ⟨⟨["First"]⟩⟩ ∧
    (documentTransform [.ns ⟨⟨["First"]⟩⟩, .ns ⟨⟨["Second"]⟩⟩]).2 =
      [multipleNamespaceWarning] := by
  decide

/-! ### C2 amended: the general shape of `document` -/

theorem unhandledWarning_ne (desc : String) :
    "Warning: Unhandled item in document parsing: " ++ desc ≠
      multipleNamespaceWarning := by
  intro h
  have hd := congrArg String.data h
  rw [strData_append] at hd
  have hpre : ("Warning: Unhandled item in document parsing: ").data.isPrefixOf
      multipleNamespaceWarning.data = true := by
    rw [← hd]
    simp [List.isPrefixOf_iff_prefix, List.prefix_append]
  exact absurd hpre (by decide)

theorem getLast?_or_cons {α : Type} (l : List α) (a : α) (x : Option α) :
    ((a :: l).getLast?).or x = (l.getLast?).or (some a) := by
  induction l generalizing a x with
  | nil => simp
  | cons b l ih =>
    rw [List.getLast?_cons_cons, ih b x, ih b (some a)]

theorem documentAux_nspace (items : List ParseItem) :
    ∀ st : DocFoldState,
      (documentAux st items).nspace =
        ((items.filterMap nsItemOf).getLast?).or st.nspace := by
  induction items with
  | nil => intro st; simp [documentAux]
  | cons item rest ih =>
    intro st
    cases item with
    | nlToken => simpa [documentAux, nsItemOf] using ih st
    | commentToken => simpa [documentAux, nsItemOf] using ih st
    | ns n =>
      have hf : List.filterMap nsItemOf (ParseItem.ns n :: rest) =
          n :: List.filterMap nsItemOf rest := by
        simp [List.filterMap_cons, nsItemOf]
      simp only [documentAux]
      rw [ih, hf, getLast?_or_cons]
    | imp i => simpa [documentAux, nsItemOf] using ih _
    | decl d => simpa [documentAux, nsItemOf] using ih _
    | unhandled desc => simpa [documentAux, nsItemOf] using ih _

theorem documentAux_warn_count (items : List ParseItem) :
    ∀ st : DocFoldState,
      ((documentAux st items).warnings).count multipleNamespaceWarning =
        st.warnings.count multipleNamespaceWarning +
          (if st.nspace.isSome then (items.filterMap nsItemOf).length
           else (items.filterMap nsItemOf).length - 1) := by
  induction items with
  | nil => intro st; cases h : st.nspace <;> simp [documentAux, h]
  | cons item rest ih =>
    intro st
    cases item with
    | nlToken => simpa [documentAux, nsItemOf] using ih st
    | commentToken => simpa [documentAux, nsItemOf] using ih st
    | ns n =>
      have hf : List.filterMap nsItemOf (ParseItem.ns n :: rest) =
          n :: List.filterMap nsItemOf rest := by
        simp [List.filterMap_cons, nsItemOf]
      simp only [documentAux]
      rw [ih, hf]
      cases h : st.nspace with
      | none => simp [h]
      | some n0 =>
        simp [h, List.count_append, List.count_singleton]
        omega
    | imp i => simpa [documentAux, nsItemOf] using ih _
    | decl d => simpa [documentAux, nsItemOf] using ih _
    | unhandled desc =>
      simp only [documentAux, nsItemOf, List.filterMap_cons_none]
      rw [ih]
      have hne : ¬ ("Warning: Unhandled item in document parsing: " ++ desc ==
          multipleNamespaceWarning) = true := by
        simpa using unhandledWarning_ne desc
      simp [List.count_append, List.count_singleton, hne]

/-- C2 amended: parsing a document with several namespace declarations is
not fatal; every namespace declaration after the first adds one
warning-level message, but the resulting document's namespace field is the
LAST namespace declaration written (each later one overwrites its
predecessor). -/
theorem document_last_namespace_wins (items : List ParseItem) :
    (documentTransform items).1.nspace =
      (items.filterMap nsItemOf).getLast? ∧
    ((documentTransform items).2.count multipleNamespaceWarning) =
      (items.filterMap nsItemOf).length - 1 := by
  constructor
  · show (documentAux ⟨none, [], [], []⟩ items).nspace = _
    rw [documentAux_nspace]
    simp
  · show ((documentAux ⟨none, [], [], []⟩ items).warnings).count _ = _
    rw [documentAux_warn_count]
    simp

/-! ## C3: the validator is neither exception-free nor pure -/

/-- C3 counterexample: validating a document whose property type arrived as
the bare string `String` returns a document map different from the input
(the type was rewritten in place), and validating a document whose node
carries an annotation usage raises `TypeError` — the claim's "never raises,
documents unchanged" fails on both counts. -/
theorem validate_not_pure_counterexample :
    Except.map (fun r => r.2 == c3MutDocs) (validate c3MutDocs) =
      Except.ok false ∧
    validate c3AnnDocs =
      Except.error (PyErr.typeError
        ("unhashable type: " ++ "\x27" ++ "list" ++ "\x27")) := by
  decide

/-! ## C4: the core-types scenario -/

/-- C4: for the loaded model of a document with namespace `Test` declaring
`node Person { prop: String }` together with the imported `gm.CoreTypes`
module that declares the built-in type `String`, `Validator.validate`
returns zero errors. -/
theorem validate_coreTypes_scenario_zero_errors :
    Except.map Prod.fst (validate c4docs) = Except.ok [] := by
  decide

/-! ## C5: cross-namespace property resolution -/

/-- C5: for document A (namespace `Foo`, no imports, `type Point`) and
document B (namespace `Bar`, importing A, `node Place { loc: Foo.Point }`),
`Validator.validate` returns zero errors, and the resolved `type_name` of
property `loc` is the qualified name `Foo.Point`. -/
theorem validate_crossNamespace_scenario_zero_errors :
    Except.map Prod.fst (validate c5docs) = Except.ok [] ∧
    Except.map (fun r => (dictLookup r.2 "Bar.gm").bind firstPropType)
        (validate c5docs) =
      Except.ok (some (.qn ⟨["Foo", "Point"]⟩)) := by
  decide

/-! ## C6: duplicate node definitions -/

/-- C6: declaring two nodes with the qualified name `Test.Person`, whether
in the same document or across two documents, yields exactly one
duplicate-definition error naming that identifier; the definition table
retains the first declaration (recognisable by its `x : Test.T` property),
which is what `_get_available_nodes` feeds to downstream reference
checks. -/
theorem validate_duplicate_node_single_error_first_kept :
    Except.map Prod.fst (validate c6docsSame) =
      Except.ok [⟨"Duplicate node definition: " ++ "\x27" ++ "Test.Person" ++
        "\x27", some "m1.gm"⟩] ∧
    (collectDefinitions (resolvePropertyTypes c6docsSame)).defined_nodes =
      [("Test.Person", c6FirstPerson)] ∧
    Except.map Prod.fst (validate c6docsCross) =
      Except.ok [⟨"Duplicate node definition: " ++ "\x27" ++ "Test.Person" ++
        "\x27", some "m2.gm"⟩] ∧
    (collectDefinitions (resolvePropertyTypes c6docsCross)).defined_nodes =
      [("Test.Person", c6FirstPerson)] := by
  decide

/-! ## C10: `load` resets its state and is repeatable -/

theorem loadImports_processing (resolve : QualifiedName → String → Option String)
    (step : LoaderState → String → Option LoaderState)
    (hstep : ∀ st f st2, step st f = some st2 → st2.processing = st.processing) :
    ∀ (imps : List ImportDeclaration) (st : LoaderState) (f : String)
      (st2 : LoaderState),
      loadImports resolve step st f imps = some st2 →
        st2.processing = st.processing := by
  intro imps
  induction imps with
  | nil =>
    intro st f st2 h
    simp only [loadImports] at h
    cases h
    rfl
  | cons imp imps ih =>
    intro st f st2 h
    simp only [loadImports] at h
    split at h
    · -- the import resolved to a path; the recursive load must have succeeded
      split at h
      · exact absurd h (by simp)
      · rename_i stMid hstepEq
        have h1 := hstep _ _ _ hstepEq
        have h2 := ih _ _ _ h
        rw [h2, h1]
    · -- unresolved import: only the error list changes
      have h2 := ih _ _ _ h
      simpa using h2

theorem loadRec_processing (fs : List (String × FsEntry))
    (resolve : QualifiedName → String → Option String) :
    ∀ (fuel : Nat) (st : LoaderState) (f : String) (st2 : LoaderState),
      loadRec fs resolve fuel st f = some st2 →
        st2.processing = st.processing := by
  intro fuel
  induction fuel with
  | zero => intro st f st2 h; simp [loadRec] at h
  | succ fuel ih =>
    intro st f st2 h
    simp only [loadRec] at h
    split at h
    · cases h; rfl
    · split at h
      · cases h; rfl
      · split at h
        · cases h; rfl
        · split at h
          · -- parse failure: `finally` pops the path again
            cases h
            simp
          · -- parsed document: the import loop preserves `processing`
            split at h
            · exact absurd h (by simp)
            · rename_i st3 hli
              have hp := loadImports_processing resolve
                (loadRec fs resolve fuel) ih _ _ _ _ hli
              cases h
              simp only [hp]
              simp

/-- C10: `AstLoader.load` resets `loaded_asts`, `errors` and `processing`
at entry (the prior loader state is irrelevant to the result), every path
pushed onto the in-processing set is popped before returning (the final
`processing` is empty), and a second consecutive `load` of the same root on
the resulting loader state returns the same state — in particular the same
document map and the same error list. -/
theorem load_resets_processing_and_repeats
    (fs : List (String × FsEntry))
    (resolve : QualifiedName → String → Option String)
    (prior prior2 : LoaderState) (root : String) (fuel : Nat)
    (st : LoaderState) (h : load fs resolve prior root fuel = some st) :
    st.processing = [] ∧ load fs resolve prior2 root fuel = some st ∧
    load fs resolve st root fuel = some st := by
  refine ⟨?_, h, h⟩
  have hp := loadRec_processing fs resolve fuel
    { loaded_asts := [], errors := [], processing := [] } root st h
  simpa using hp

/-- Witness for C10: a run of `load` from a dirty loader state on the
two-file import graph, repeated from a differently dirty state and from the
resulting state itself. -/
theorem load_resets_witness :
    load fsXY resolveXY dirtyState1 "X.gm" 10 = some twoFileFinal ∧
    (twoFileFinal.processing = [] ∧
      load fsXY resolveXY dirtyState2 "X.gm" 10 = some twoFileFinal ∧
      load fsXY resolveXY twoFileFinal "X.gm" 10 = some twoFileFinal) :=
  ⟨by decide,
    load_resets_processing_and_repeats fsXY resolveXY dirtyState1 dirtyState2
      "X.gm" 10 twoFileFinal (by decide)⟩

/-! ### C3 amended: what `validate` actually guarantees -/

theorem scrubProp_resolveProp (itm : List (String × QualifiedName))
    (n : QualifiedName) (p : PropertyDeclaration) :
    scrubProp (resolveProp itm n p) = scrubProp p := rfl

theorem scrubDecl_resolveDecl (itm : List (String × QualifiedName))
    (d : Declaration) : scrubDecl (resolveDecl itm d) = scrubDecl d := by
  cases d <;>
    simp [resolveDecl, scrubDecl, List.map_map, Function.comp,
      scrubProp_resolveProp]

theorem resolvePropertyTypes_scrub (docs : List (String × Document)) :
    (resolvePropertyTypes docs).map (fun pd => (pd.1, scrubDoc pd.2)) =
      docs.map (fun pd => (pd.1, scrubDoc pd.2)) := by
  unfold resolvePropertyTypes
  rw [List.map_map]
  apply List.map_congr_left
  intro pd _
  simp [Function.comp, scrubDoc, List.map_map, scrubDecl_resolveDecl]

theorem resolveDecl_annotations (itm : List (String × QualifiedName))
    (d : Declaration) : (resolveDecl itm d).annotations = d.annotations := by
  cases d <;> rfl

theorem validateDeclPass2_ok (decl : Declaration)
    (availT availN availA : List String) (path : Option String)
    (h : decl.annotations = []) :
    ∃ errs, validateDeclPass2 decl availT availN availA path =
      Except.ok errs := by
  cases decl <;> simp [Declaration.annotations] at h <;>
    first
      | (subst h; exact ⟨_, rfl⟩)
      | exact ⟨_, rfl⟩

theorem foldlM_except_ok {α β ε : Type} (f : β → α → Except ε β)
    (l : List α) (h : ∀ acc a, a ∈ l → ∃ r, f acc a = .ok r) :
    ∀ acc, ∃ r, l.foldlM f acc = .ok r := by
  induction l with
  | nil => intro acc; exact ⟨acc, rfl⟩
  | cons a l ih =>
    intro acc
    obtain ⟨r, hr⟩ := h acc a (List.mem_cons_self a l)
    have := ih (fun acc2 b hb => h acc2 b (List.mem_cons_of_mem a hb)) r
    obtain ⟨r2, hr2⟩ := this
    refine ⟨r2, ?_⟩
    rw [List.foldlM_cons, hr]
    simpa [Except.bind] using hr2

theorem validateDocPass2_ok (tables : DefTables) (core : Option Document)
    (all_docs : List (String × Document)) (path : String) (doc : Document)
    (h : ∀ d ∈ doc.declarations, d.annotations = []) :
    ∃ errs, validateDocPass2 tables core all_docs path doc =
      Except.ok errs := by
  unfold validateDocPass2
  apply foldlM_except_ok
  intro acc d hd
  obtain ⟨errs, herrs⟩ := validateDeclPass2_ok d
    (getAvailableTypes doc core all_docs)
    (getAvailableNodes doc tables.defined_nodes)
    (getAvailableAnnotations doc tables.defined_annotations)
    (some path) (h d hd)
  exact ⟨acc ++ errs, by rw [herrs]⟩

theorem pass2All_ok (tables : DefTables) (core : Option Document)
    (docs : List (String × Document))
    (h : ∀ pd ∈ docs, ∀ d ∈ pd.2.declarations, d.annotations = []) :
    ∃ errs, pass2All tables core docs = Except.ok errs := by
  unfold pass2All
  apply foldlM_except_ok
  intro acc pd hpd
  obtain ⟨errs, herrs⟩ := validateDocPass2_ok tables core docs pd.1 pd.2
    (h pd hpd)
  exact ⟨acc ++ errs, by rw [herrs]⟩

/-- C3 amended: `Validator.validate` is not a pure function on its input
documents — it rewrites them in place, replacing bare string property types
with resolved qualified names — and it raises a `TypeError` whenever any
declaration carries an annotation usage.  What does hold: for inputs whose
declarations carry no annotation usages, `validate` returns an error list
without raising, the documents the caller sees afterwards are exactly
`_resolve_property_types` of the input, and that rewrite changes nothing
except property `type_name`s (names, namespaces, imports, annotations,
edge endpoints and declaration order are all preserved). -/
theorem validate_annotationFree_no_raise_and_frame
    (docs : List (String × Document)) (h : noDeclAnnotations docs = true) :
    ∃ errs, validate docs = Except.ok (errs, resolvePropertyTypes docs) ∧
      (resolvePropertyTypes docs).map (fun pd => (pd.1, scrubDoc pd.2)) =
        docs.map (fun pd => (pd.1, scrubDoc pd.2)) := by
  have hresolved : ∀ pd ∈ resolvePropertyTypes docs,
      ∀ d ∈ pd.2.declarations, d.annotations = [] := by
    intro pd hpd d hd
    unfold resolvePropertyTypes at hpd
    obtain ⟨pd0, hpd0, rfl⟩ := List.mem_map.mp hpd
    simp only at hd
    obtain ⟨d0, hd0, rfl⟩ := List.mem_map.mp hd
    rw [resolveDecl_annotations]
    have h1 := (List.all_eq_true.mp h) pd0 hpd0
    have h2 := (List.all_eq_true.mp h1) d0 hd0
    simpa [List.isEmpty_iff] using h2
  obtain ⟨r, hr⟩ := pass2All_ok
    (collectDefinitions (resolvePropertyTypes docs))
    (findCoreTypesDoc (resolvePropertyTypes docs))
    (resolvePropertyTypes docs) hresolved
  refine ⟨(collectDefinitions (resolvePropertyTypes docs)).errors ++ r, ?_,
    resolvePropertyTypes_scrub docs⟩
  unfold validate
  simp only [hr]

/-- Witness for C3 amended, at the concrete annotation-free model
`c3MutDocs`. -/
theorem validate_annotationFree_witness :
    noDeclAnnotations c3MutDocs = true ∧
    ∃ errs, validate c3MutDocs =
        Except.ok (errs, resolvePropertyTypes c3MutDocs) ∧
      (resolvePropertyTypes c3MutDocs).map (fun pd => (pd.1, scrubDoc pd.2)) =
        c3MutDocs.map (fun pd => (pd.1, scrubDoc pd.2)) :=
  ⟨by decide, validate_annotationFree_no_raise_and_frame c3MutDocs (by decide)⟩

/-! ## C7: the validator reports every unknown type -/

theorem toStr_two_parts (a t : String) :
    QualifiedName.toStr ⟨[a, t]⟩ = a ++ "." ++ t := rfl

theorem checkProp_c7 (nt : String × String) :
    checkProp [] ⟨["Test", "Person"]⟩ (some "m.gm")
      (resolveProp [] ⟨["Test", "Person"]⟩ ⟨nt.1, .strV nt.2, []⟩) =
      some (c7err nt) := by
  have hTP : QualifiedName.toStr ⟨["Test", "Person"]⟩ = "Test.Person" := rfl
  by_cases hdot : nt.2.data.contains '.'
  · simp only [resolveProp, hdot, not_true_eq_false, if_false, checkProp]
    simp at hdot
    simp [c7err, hdot, from_str_toStr, hTP]
  · simp only [resolveProp, hdot, not_false_eq_true, if_true, dictLookup,
      checkProp]
    have h2 : QualifiedName.toStr ⟨["Test", nt.2]⟩ = "Test." ++ nt.2 := by
      rw [toStr_two_parts]
      apply strExt
      rw [strData_append, strData_append, strData_append]
      rfl
    simp at hdot
    simp [c7err, hdot, h2, hTP]

theorem filterMap_all_some {α β : Type} (p : α → Option β) (q : α → β)
    (l : List α) (h : ∀ a ∈ l, p a = some (q a)) :
    l.filterMap p = l.map q := by
  induction l with
  | nil => rfl
  | cons a l ih =>
    rw [List.filterMap_cons, h a (List.mem_cons_self a l), List.map_cons,
      ih (fun b hb => h b (List.mem_cons_of_mem a hb))]

/-- C7: for a model containing `ts.length` independent unknown-type
property references (one per entry of `ts`), `Validator.validate` returns
without raising, and the error list is exactly one unknown-type error per
reference — no error aborts the pass, and the validator never terminates
early. -/
theorem validate_reports_all_unknown_types (ts : List (String × String)) :
    ∃ errs docs2, validate (c7model ts) = Except.ok (errs, docs2) ∧
      errs.length = ts.length ∧ ∀ e ∈ errs, isUnknownTypeMsg e = true := by
  have hval : validate (c7model ts) = Except.ok
      ((((c7props ts).map (resolveProp [] ⟨["Test", "Person"]⟩)).filterMap
          (checkProp [] ⟨["Test", "Person"]⟩ (some "m.gm")) ++ []) ++ [],
       resolvePropertyTypes (c7model ts)) := rfl
  have hmap : ((c7props ts).map (resolveProp [] ⟨["Test", "Person"]⟩)).filterMap
      (checkProp [] ⟨["Test", "Person"]⟩ (some "m.gm")) = ts.map c7err := by
    rw [List.filterMap_map]
    unfold c7props
    rw [List.filterMap_map]
    apply filterMap_all_some
    intro nt _
    simpa [Function.comp] using checkProp_c7 nt
  refine ⟨ts.map c7err, resolvePropertyTypes (c7model ts), ?_, ?_, ?_⟩
  · rw [hval, List.append_nil, List.append_nil, hmap]
  · simp
  · intro e he
    obtain ⟨nt, _, rfl⟩ := List.mem_map.mp he
    show (("Unknown type ").data.isPrefixOf (c7err nt).message.data) = true
    have hmsg : (c7err nt).message = "Unknown type " ++ ("\x27" ++
        ((if nt.2.data.contains '.' then nt.2 else "Test." ++ nt.2) ++
          ("\x27" ++ (" used in property " ++ ("\x27" ++ (nt.1 ++ ("\x27" ++
            (" of " ++ ("\x27" ++ ("Test.Person" ++ "\x27")))))))))) := by
      simp only [c7err, String.append_assoc]
    rw [hmsg, strData_append]
    simp [List.isPrefixOf_iff_prefix, List.prefix_append]

/-! ## C9: idempotence of qualification -/

/-- C9: `AstTransformer.qualify_name` returns a `QualifiedName` argument
unchanged, so qualifying the (always fully qualified) result of a
qualification is a no-op: `qualify (qualify x) = qualify x`, for every
current namespace and every name argument. -/
theorem qualify_name_idempotent (ns : Option NamespaceDeclaration)
    (x : NameArg) :
    qualify_name ns (.qn (qualify_name ns x)) = qualify_name ns x := rfl

end GmDsl
